import Mathlib

/-!
Verification of the RAG question-answering pipeline
(`src/components/1.router.py` … `5.answer_generator.py`,
`src/workflow/rag_workflow.py`, `src/utils/cache.py`).

The Python code is shallowly embedded: every component method becomes a pure
Lean function of its inputs together with an explicit value describing the
outcome of the external language-model call (the OpenAI client), since that
call is the only source of nondeterminism inside each method.  Python floats
are modelled by `ℚ`; Python dicts by insertion-ordered association lists;
JSON values produced by `json.loads` by the inductive type `Json`.
-/

namespace RAG

/-- JSON values as produced by `json.loads`.  `obj` keeps the fields in
document order (Python dicts preserve insertion order). -/
inductive Json where
  | null : Json
  | bool (b : Bool) : Json
  | num (q : ℚ) : Json
  | str (s : String) : Json
  | arr (elems : List Json) : Json
  | obj (fields : List (String × Json)) : Json

/-- `d.get(k)` on a parsed JSON object: the value of the first field named
`k`, if any. -/
def jGet (fields : List (String × Json)) (k : String) : Option Json :=
  (fields.find? (fun p => p.1 == k)).map (fun p => p.2)

/-- Python's notion of whitespace for `strip`/`split` (ASCII part). -/
def isPySpace (c : Char) : Bool :=
  c = ' ' ∨ c = '\t' ∨ c = '\n' ∨ c = '\r'

/-- Python `str.split()` with no argument, on the character list: split on
whitespace runs and drop empty pieces; `acc` holds the current word
reversed. -/
def splitWords : List Char → List Char → List String
  | [], acc => if acc.isEmpty then [] else [String.mk acc.reverse]
  | c :: rest, acc =>
      if isPySpace c then
        if acc.isEmpty then splitWords rest []
        else String.mk acc.reverse :: splitWords rest []
      else splitWords rest (c :: acc)

/-- Python `str.split()` with no argument. -/
def pySplit (s : String) : List String :=
  splitWords s.data []

/-- Python `str.strip()`: drop whitespace from both ends. -/
def pyStrip (s : String) : String :=
  String.mk (((s.data.dropWhile isPySpace).reverse.dropWhile isPySpace).reverse)

/-- Python `str.upper()` (ASCII case mapping). -/
def pyUpper (s : String) : String :=
  String.mk (s.data.map Char.toUpper)

/-- `SearchResult` from `src/models.py` (the dataclass itself is declared in a
file not under `src/`; its three fields are used throughout the components and
listed in the spec's data model).  Modelled from the spec:
`{ text, metadata, score }` with `score` a float, `metadata` a string map. -/
structure SearchResult where
  text : String
  metadata : List (String × String)
  score : ℚ
  deriving Repr, DecidableEq

/-- `QueryIntent` from `src/models.py` (not under `src/`).  Modelled from the
spec: enumerated variant `{ANSWER, CLARIFY, REJECT}`. -/
inductive QueryIntent where
  | ANSWER : QueryIntent
  | CLARIFY : QueryIntent
  | REJECT : QueryIntent
  deriving Repr, DecidableEq

/-- `StepLog` from `src/logging/base.py` (not under `src/`).  Modelled from
the spec: one record per stage invocation with fields
`step_id, step_name, input, output, metadata, timestamp, duration_ms,
success, error`.  Only the fields the claims and the workflow logic inspect
are carried; `step_id` (a fresh uuid) and `timestamp` come from the runtime
environment and are not modelled. -/
structure StepLog where
  step_name : String
  decision : Option String
  success : Bool
  error : Option String
  deriving Repr, DecidableEq

/-- Outcome of one `chat.completions.create` call followed by `json.loads`:
either some exception was raised (provider error, missing content, or a JSON
parse error — all reach the same `except` handler), or a parsed JSON value. -/
inductive LLMOutcome where
  | failure (e : String) : LLMOutcome
  | success (v : Json) : LLMOutcome

/-! ### `LLMRequestRouter.route_query` (src/components/1.router.py, lines 35-96)

The provider call is abstracted as `call : Except String String`: `.ok s`
means the call returned message content `s`, `.error e` means it raised an
exception whose `str` is `e`. -/

/-- `QueryIntent[decision]` for a decision already known to be one of the
three tokens. -/
def intentOfToken (decision : String) : QueryIntent :=
  if decision = "ANSWER" then QueryIntent.ANSWER
  else if decision = "CLARIFY" then QueryIntent.CLARIFY
  else QueryIntent.REJECT

/-- `LLMRequestRouter.route_query`: trim and upper-case the response; a
recognized token is returned with a `success=True` log, an unrecognized token
yields `(CLARIFY, success=False, "Invalid response from router")`, and an
exception from the call yields `(ANSWER, success=False, str(e))`. -/
def route_query (query : String) (call : Except String String) :
    QueryIntent × StepLog :=
  match call with
  | Except.ok content =>
      let decision := pyUpper (pyStrip content)
      if decision ∈ (["ANSWER", "CLARIFY", "REJECT"] : List String) then
        (intentOfToken decision,
          { step_name := "route_query", decision := some decision,
            success := true, error := none })
      else
        (QueryIntent.CLARIFY,
          { step_name := "route_query", decision := none,
            success := false, error := some "Invalid response from router" })
  | Except.error e =>
      (QueryIntent.ANSWER,
        { step_name := "route_query", decision := none,
          success := false, error := some e })

/-! ### `LLMQueryReformulator.reformulate` (src/components/2.reformulator.py, lines 37-85)

The whole body after the cache check sits in one `try`, so a raised exception
anywhere (provider call, `json.loads`, `.get` on a non-dict) lands in the
fallback.  The cache is bypassed here: a cache hit only replays a value this
same computation produced earlier.  Keyword entries and the refined text are
kept as raw `Json` values exactly as Python stores them; a `keywords` value
that is neither a list nor absent is routed to the fallback (in Python a
string or dict value would instead be sliced/stored as-is — no claim depends
on that corner, and `len()` on the remaining kinds raises, which does reach
the fallback). -/

/-- `ReformulatedQuery` dataclass (src/components/2.reformulator.py,
lines 10-13).  Python does not coerce the JSON values it stores, so both
fields hold raw `Json`. -/
structure ReformulatedQuery where
  refined_text : Json
  keywords : List Json

/-- `LLMQueryReformulator.reformulate` as a function of the query and the
outcome of the provider call. -/
def reformulate (query : String) (outcome : LLMOutcome) : ReformulatedQuery :=
  let fallback : ReformulatedQuery :=
    { refined_text := Json.str query,
      keywords := ((pySplit query).take 6).map Json.str }
  match outcome with
  | LLMOutcome.failure _ => fallback
  | LLMOutcome.success (Json.obj fields) =>
      match (jGet fields "keywords").getD (Json.arr []) with
      | Json.arr l =>
          let kws : List Json :=
            if 6 < l.length then l.take 6
            else if l.length < 2 then ((pySplit query).take 6).map Json.str
            else l
          { refined_text := (jGet fields "refined_query").getD (Json.str query),
            keywords := kws }
      | _ => fallback
  | LLMOutcome.success _ => fallback

/-! ### `LLMCompletionChecker.check_completion` (src/components/4.completion_checker.py, lines 34-85) -/

/-- The numbered-blocks context formatting shared by the checker and the
generator (`"Context {i+1}:\n{text}"` joined by blank lines). -/
def formatContext (context : List SearchResult) : String :=
  String.intercalate "\n\n"
    (context.enum.map
      (fun p => "Context " ++ toString (p.1 + 1) ++ ":\n" ++ p.2.text))

/-- Python `float(v)` on a JSON value: numbers convert, booleans convert to
`1.0`/`0.0`, everything else raises `ValueError`/`TypeError`.  (Numeric
strings, which `float` would also accept, are not modelled; no claim depends
on them.) -/
def pyFloat : Json → Except String ℚ
  | Json.num q => Except.ok q
  | Json.bool b => Except.ok (if b then 1 else 0)
  | _ => Except.error "could not convert value to float"

/-- `LLMCompletionChecker.check_completion`: parse the response, read
`result.get("score", 0.0)`, convert with `float`, clamp into `[0,1]`.  Any
exception (provider call, JSON parse, `.get` on a non-dict, `float` on a
non-numeric value) reaches the handler that returns `0.5`.  Note that a
parsed object with no `"score"` field does NOT raise: the `.get` default
`0.0` is clamped and returned. -/
def check_completion (query : String) (context : List SearchResult)
    (outcome : LLMOutcome) : ℚ :=
  match outcome with
  | LLMOutcome.failure _ => 1/2
  | LLMOutcome.success (Json.obj fields) =>
      match pyFloat ((jGet fields "score").getD (Json.num 0)) with
      | Except.ok score => max 0 (min 1 score)
      | Except.error _ => 1/2
  | LLMOutcome.success _ => 1/2

/-! ### `LLMAnswerGenerator.generate_answer` (src/components/5.answer_generator.py, lines 34-100)

The provider call is `call : Except String String` (content or exception) and
`json.loads` is an abstract `parse : String → Except String Json`; both sit
inside the same `try`, together with the citation-building loop and the
`float` conversion, so an exception from any of them reaches the handler
producing the fixed error response. -/

/-- `Citation` dataclass from `src/models.py` (not under `src/`).  Modelled
from the spec: `{ text, metadata, relevance_score }`.  Python stores the JSON
values without coercion, so `text` and `relevance_score` are raw `Json`. -/
structure Citation where
  text : Json
  metadata : List (String × String)
  relevance_score : Json

/-- `RAGResponse` dataclass from `src/models.py` (not under `src/`).  Modelled
from the spec: `{ answer, citations, confidence_score }`; `answer` is stored
uncoerced, `confidence_score` goes through `float`. -/
structure RAGResponse where
  answer : Json
  citations : List Citation
  confidence_score : ℚ

/-- Python substring containment `needle in hay` on the underlying character
lists. -/
def charSub : List Char → List Char → Bool
  | needle, [] => needle.isEmpty
  | needle, c :: rest => needle.isPrefixOf (c :: rest) || charSub needle rest

/-- Python `needle in hay` for strings. -/
def strIn (needle hay : String) : Bool :=
  charSub needle.data hay.data

/-- One iteration of the citation loop: `cite["text"]` (raising `KeyError` if
absent, `TypeError` if `cite` is not a dict), the first-match scan
`cite["text"] in ctx.text` over the context (raising `TypeError` on a
non-string quote as soon as one containment test runs), metadata inherited
from the first containing entry or `{}`, and
`cite.get("relevance_score", 0.5)` stored uncoerced. -/
def buildCitation (context : List SearchResult) (cite : Json) :
    Except String Citation :=
  match cite with
  | Json.obj cf =>
      match jGet cf "text", context with
      | some (Json.str t), _ =>
          let matching := context.find? (fun ctx => strIn t ctx.text)
          Except.ok
            { text := Json.str t,
              metadata := (matching.map (fun ctx => ctx.metadata)).getD [],
              relevance_score := (jGet cf "relevance_score").getD (Json.num (1/2)) }
      | some tv, [] =>
          Except.ok
            { text := tv, metadata := [],
              relevance_score := (jGet cf "relevance_score").getD (Json.num (1/2)) }
      | some _, _ :: _ => Except.error "TypeError: in requires string as left operand"
      | none, _ => Except.error "KeyError: text"
  | _ => Except.error "TypeError: citation is not a dict"

/-- The `for i, cite in enumerate(parsed.get("citations", []))` loop: build
each citation in order; the first exception aborts the whole `try` block. -/
def buildCitations (context : List SearchResult) :
    List Json → Except String (List Citation)
  | [] => Except.ok []
  | c :: rest =>
      (buildCitation context c).bind (fun cite =>
        (buildCitations context rest).bind (fun cites =>
          Except.ok (cite :: cites)))

/-- The body of the `try` block after `json.loads` succeeded: read
`parsed.get("citations", [])` (iterating a non-list raises by the time
`cite["text"]` is evaluated; modelled as raising directly), build every
citation, then assemble the response with the `answer` default and
`float(parsed.get("confidence_score", 0.5))`. -/
def generateFromParsed (context : List SearchResult) (parsed : Json) :
    Except String RAGResponse :=
  match parsed with
  | Json.obj fields =>
      (match jGet fields "citations" with
        | some (Json.arr l) => Except.ok l
        | none => Except.ok []
        | some _ => Except.error "TypeError: citations is not a list").bind
      (fun cs =>
        (buildCitations context cs).bind
        (fun citations =>
          (pyFloat ((jGet fields "confidence_score").getD (Json.num (1/2)))).bind
          (fun conf =>
            Except.ok
              { answer := (jGet fields "answer").getD
                  (Json.str "Unable to generate answer."),
                citations := citations,
                confidence_score := conf })))
  | _ => Except.error "AttributeError: no attribute get"

/-- The fixed response built by the `except` handler. -/
def errorResponse (e : String) : RAGResponse :=
  { answer := Json.str ("Sorry, I encountered an error generating the answer: " ++ e),
    citations := [],
    confidence_score := 0 }

/-- `LLMAnswerGenerator.generate_answer`. -/
def generate_answer (query : String) (context : List SearchResult)
    (call : Except String String) (parse : String → Except String Json) :
    RAGResponse :=
  match call.bind (fun content => (parse content).bind
      (fun parsed => generateFromParsed context parsed)) with
  | Except.ok r => r
  | Except.error e => errorResponse e

/-! ### `VectorRetriever.rerank` (src/components/3.retriever.py, lines 138-162)

`merged` is a Python dict keyed by result text; dicts preserve insertion
order, so it is embedded as an insertion-ordered association list of
`SearchResult`s (the key is the `text` field).  `sorted(..., reverse=True)`
is a stable descending sort, embedded as `List.mergeSort` with the comparator
`b.score ≤ a.score`. -/

/-- `text in merged` for the association-list embedding of the dict. -/
def textMem (m : List SearchResult) (t : String) : Bool :=
  m.any (fun e => e.text == t)

/-- `SearchResult(text=..., metadata=..., score=score * semantic_weight)`
with `semantic_weight = 0.7`. -/
def semProj (r : SearchResult) : SearchResult :=
  { text := r.text, metadata := r.metadata, score := r.score * (7/10) }

/-- `SearchResult(text=..., metadata=..., score=score * keyword_weight)`
with `keyword_weight = 0.3`. -/
def kwProj (r : SearchResult) : SearchResult :=
  { text := r.text, metadata := r.metadata, score := r.score * (3/10) }

/-- `merged[result.text] = SearchResult(...)`: replace the entry with that
text key, or append a new one. -/
def dictSet (m : List SearchResult) (r : SearchResult) : List SearchResult :=
  if textMem m r.text then
    m.map (fun e => if e.text == r.text then r else e)
  else m ++ [r]

/-- The first loop of `rerank`: seed `merged` with every semantic result at
`score * 0.7`. -/
def semPhase (semantic_results : List SearchResult) : List SearchResult :=
  semantic_results.foldl (fun m r => dictSet m (semProj r)) []

/-- One iteration of the second loop of `rerank`: if the keyword result's
text is already a key, add `score * 0.3` to the stored entry's score
(`merged[result.text].score += result.score * keyword_weight` mutates in
place, keeping position and metadata), otherwise insert a new entry at
`score * 0.3`. -/
def kwStep (m : List SearchResult) (r : SearchResult) : List SearchResult :=
  if textMem m r.text then
    m.map (fun e =>
      if e.text == r.text then { e with score := e.score + r.score * (3/10) }
      else e)
  else m ++ [kwProj r]

/-- `VectorRetriever.rerank`: Python's `sorted(..., key=score, reverse=True)`
is a stable descending sort, embedded as the stable `List.mergeSort` with the
comparator `b.score ≤ a.score`. -/
def rerank (semantic_results keyword_results : List SearchResult) :
    List SearchResult :=
  let merged := keyword_results.foldl kwStep (semPhase semantic_results)
  merged.mergeSort (fun a b => decide (b.score ≤ a.score))

/-- The score adjustment the keyword loop applies to an already-present entry
whose text matches a keyword result in `K` (at most one can match when the
keyword texts are pairwise distinct). -/
def bumpBy (K : List SearchResult) (e : SearchResult) : SearchResult :=
  match K.find? (fun k => k.text == e.text) with
  | some k => { e with score := e.score + k.score * (3/10) }
  | none => e

/-! ### `RAGWorkflow` (src/workflow/rag_workflow.py, lines 39-97)

Each injected component is modelled by the contract `RAGWorkflow._execute`
consumes: a stage is a function from its inputs and the attempt index to
either a raised exception or the `(value, StepLog)` pair the workflow
destructures.  (As shipped, only `LLMRequestRouter._execute` actually returns
such a pair — the other component classes return bare values, a latent
integration mismatch outside these claims; the workflow code itself is
written against the pair-returning contract embedded here.)  The attempt
index makes the external world's per-attempt nondeterminism explicit.
`time.sleep` only delays and is not modelled. -/

/-- `RAGWorkflow._execute_with_retry` starting from attempt `i` with `n`
attempts left: try the attempt; on an exception, re-raise it if this was the
last attempt, otherwise back off and try the next one.  (`retries = 0` never
enters the loop and raises the unset `last_error`.) -/
def retryFrom {α : Type} (attempts : Nat → Except String α) :
    Nat → Nat → Except String α
  | _, 0 => Except.error "TypeError: exceptions must derive from BaseException"
  | i, n + 1 =>
      match attempts i with
      | Except.ok v => Except.ok v
      | Except.error e =>
          match n with
          | 0 => Except.error e
          | m + 1 => retryFrom attempts (i + 1) (m + 1)

/-- `RAGWorkflow._execute_with_retry` with `retries` total attempts. -/
def execute_with_retry {α : Type} (attempts : Nat → Except String α)
    (retries : Nat) : Except String α :=
  retryFrom attempts 0 retries

/-- Result of one `RAGWorkflow._execute` run: `sink` is the sequence of
`logger.log_step` calls in order; `result` is the returned
`(response, step_logs)` pair, or the exception that propagated. -/
structure WorkflowRun where
  sink : List StepLog
  result : Except String (Option RAGResponse × List StepLog)

/-- `RAGWorkflow._execute`: route, gate on intent, reformulate, retrieve (fed
the reformulated text and keywords), check, gate on the completion threshold,
generate.  Every *successful* stage call hands back one `StepLog`, which is
appended to `step_logs` and forwarded to `logger.log_step`; a stage whose
retries are exhausted propagates its exception (losing the local
`step_logs`). -/
def rag_execute (query : String)
    (router : String → Nat → Except String (QueryIntent × StepLog))
    (reformulator : String → Nat → Except String (ReformulatedQuery × StepLog))
    (retriever : Json → List Json → Nat →
      Except String (List SearchResult × StepLog))
    (checker : String → List SearchResult → Nat → Except String (ℚ × StepLog))
    (generator : String → List SearchResult → Nat →
      Except String (RAGResponse × StepLog))
    (completion_threshold : ℚ) (max_retries : Nat) : WorkflowRun :=
  match execute_with_retry (router query) max_retries with
  | Except.error e => { sink := [], result := Except.error e }
  | Except.ok (intent, route_log) =>
      if intent ≠ QueryIntent.ANSWER then
        { sink := [route_log], result := Except.ok (none, [route_log]) }
      else
        match execute_with_retry (reformulator query) max_retries with
        | Except.error e => { sink := [route_log], result := Except.error e }
        | Except.ok (reformulated, reform_log) =>
            match execute_with_retry
                (retriever reformulated.refined_text reformulated.keywords)
                max_retries with
            | Except.error e =>
                { sink := [route_log, reform_log], result := Except.error e }
            | Except.ok (context, retrieve_log) =>
                match execute_with_retry (checker query context) max_retries with
                | Except.error e =>
                    { sink := [route_log, reform_log, retrieve_log],
                      result := Except.error e }
                | Except.ok (completion_score, check_log) =>
                    if completion_score < completion_threshold then
                      { sink := [route_log, reform_log, retrieve_log, check_log],
                        result :=
                          Except.ok (none,
                            [route_log, reform_log, retrieve_log, check_log]) }
                    else
                      match execute_with_retry (generator query context)
                          max_retries with
                      | Except.error e =>
                          { sink :=
                              [route_log, reform_log, retrieve_log, check_log],
                            result := Except.error e }
                      | Except.ok (response, generate_log) =>
                          { sink :=
                              [route_log, reform_log, retrieve_log, check_log,
                               generate_log],
                            result :=
                              Except.ok (some response,
                                [route_log, reform_log, retrieve_log, check_log,
                                 generate_log]) }

/-! ### `MemoryCache` (src/utils/cache.py, lines 97-145)

`self.cache` is a dict from the hashed key to `(value, timestamp)`; it is
embedded as an insertion-ordered association list.  `_get_cache_key` computes
an md5 hex digest, modelled as an arbitrary function held by the cache;
`time.time()` readings become explicit `ℚ` arguments of `get`/`set`. -/

structure MemoryCache (α : Type) where
  hashKey : String → String
  cache : List (String × α × ℚ)
  ttl : ℚ

/-- `MemoryCache.set`: `self.cache[cache_key] = (value, time.time())` —
replace the entry under the hashed key or append a new one. -/
def MemoryCache.set {α : Type} (c : MemoryCache α) (key : String) (value : α)
    (now : ℚ) : MemoryCache α :=
  let ck := c.hashKey key
  if c.cache.any (fun e => e.1 == ck) then
    let updated := c.cache.map (fun e => if e.1 == ck then (ck, value, now) else e)
    { c with cache := updated }
  else
    { c with cache := c.cache ++ [(ck, value, now)] }

/-- `MemoryCache.get`: look the hashed key up; a fresh entry
(`time.time() - timestamp < self.ttl`) is returned, an expired one is deleted
and `None` is returned. -/
def MemoryCache.get {α : Type} (c : MemoryCache α) (key : String) (now : ℚ) :
    Option α × MemoryCache α :=
  let ck := c.hashKey key
  match c.cache.find? (fun e => e.1 == ck) with
  | some (_, value, timestamp) =>
      if now - timestamp < c.ttl then (some value, c)
      else (none, { c with cache := c.cache.filter (fun e => ¬ e.1 == ck) })
  | none => (none, c)

/-! ### Concrete fixtures used by witnesses and counterexamples -/

/-- A fixed successful step log. -/
def exLog (name : String) : StepLog :=
  { step_name := name, decision := none, success := true, error := none }

/-- A router stage whose first attempt raises and whose second attempt
returns `CLARIFY`. -/
def flakyRouter : String → Nat → Except String (QueryIntent × StepLog) :=
  fun _ i => if i = 0 then Except.error "boom"
             else Except.ok (QueryIntent.CLARIFY, exLog "route_query")

/-- A router stage that always answers `REJECT`. -/
def rejectRouter : String → Nat → Except String (QueryIntent × StepLog) :=
  fun _ _ => Except.ok (QueryIntent.REJECT, exLog "route_query")

/-- A router stage that always answers `ANSWER`. -/
def answerRouter : String → Nat → Except String (QueryIntent × StepLog) :=
  fun _ _ => Except.ok (QueryIntent.ANSWER, exLog "route_query")

/-- A reformulator stage that always succeeds. -/
def stubReformulator : String → Nat → Except String (ReformulatedQuery × StepLog) :=
  fun q _ => Except.ok
    ({ refined_text := Json.str q, keywords := [Json.str "k1", Json.str "k2"] },
      exLog "reformulate")

/-- A retriever stage that always returns one result. -/
def stubRetriever : Json → List Json → Nat →
    Except String (List SearchResult × StepLog) :=
  fun _ _ _ => Except.ok
    ([{ text := "Paris is the capital of France", metadata := [("source", "wiki")],
        score := 9/10 }], exLog "retrieve")

/-- A checker stage that always scores `0.4`. -/
def lowChecker : String → List SearchResult → Nat → Except String (ℚ × StepLog) :=
  fun _ _ _ => Except.ok (2/5, exLog "check_completion")

/-- A generator stage that never gets invoked in the scenarios below. -/
def stubGenerator : String → List SearchResult → Nat →
    Except String (RAGResponse × StepLog) :=
  fun _ _ _ => Except.error "generator must not be invoked"

/-- Semantic results used by the rerank witness: texts `"A"`, `"B"`. -/
def semResults : List SearchResult :=
  [{ text := "A", metadata := [], score := 9/10 },
   { text := "B", metadata := [], score := 1/2 }]

/-- Keyword results used by the rerank witness: texts `"B"`, `"C"`, flat
score `1.0`. -/
def kwResults : List SearchResult :=
  [{ text := "B", metadata := [("k", "1")], score := 1 },
   { text := "C", metadata := [], score := 1 }]

/-- A two-entry context used by the citation-matching witness. -/
def exContext : List SearchResult :=
  [{ text := "Paris is the capital of France", metadata := [("source", "wiki")],
     score := 9/10 },
   { text := "Berlin is the capital of Germany", metadata := [("source", "book")],
     score := 1/2 }]

/-!
# Theorems

One theorem per claim of the specification, each preceded by helper lemmas
where needed.
-/

/-! ## C4 — router error policy -/

/-- C4: for every query, `route_query` returns `CLARIFY` with a
`success=False` log when the provider call succeeds but its trimmed
upper-cased response is none of `ANSWER`/`CLARIFY`/`REJECT`, and returns
`ANSWER` with a `success=False` log when the call raises; being a total
function of the call outcome, it never propagates the provider exception. -/
theorem route_query_failure_policy :
    (∀ query s : String,
        pyUpper (pyStrip s) ∉ (["ANSWER", "CLARIFY", "REJECT"] : List String) →
        route_query query (Except.ok s) =
          (QueryIntent.CLARIFY,
            { step_name := "route_query", decision := none, success := false,
              error := some "Invalid response from router" }))
  ∧ (∀ query e : String,
        route_query query (Except.error e) =
          (QueryIntent.ANSWER,
            { step_name := "route_query", decision := none, success := false,
              error := some e })) := by
  constructor
  · intro query s h
    simp only [route_query, if_neg h]
  · intro query e
    rfl

/-- Witness for C4 at the unrecognized token `"maybe"` and the exception
`"boom"`. -/
theorem route_query_failure_policy_witness :
    route_query "q" (Except.ok "maybe") =
      (QueryIntent.CLARIFY,
        { step_name := "route_query", decision := none, success := false,
          error := some "Invalid response from router" })
  ∧ route_query "q" (Except.error "boom") =
      (QueryIntent.ANSWER,
        { step_name := "route_query", decision := none, success := false,
          error := some "boom" }) :=
  ⟨route_query_failure_policy.1 "q" "maybe" (by decide),
   route_query_failure_policy.2 "q" "boom"⟩

/-! ## C2 — reformulator keyword count -/

/-- C2 counterexample: on the one-token query `"hi"` with a well-formed
provider response whose `keywords` list is empty, the backfill
`query.split()[:6]` produces a single keyword, so the claimed lower bound
`2 ≤ len(keywords)` fails. -/
theorem reformulate_keyword_count_counterexample :
    ¬ 2 ≤ (reformulate "hi"
        (LLMOutcome.success (Json.obj [("keywords", Json.arr [])]))).keywords.length := by
  decide

/-- C2 amended: the keyword count never exceeds 6, and it is at least 2
whenever the original query has at least 2 whitespace-separated tokens; a
query with fewer tokens can end up with fewer than 2 keywords. -/
theorem reformulate_keyword_count_amended (query : String) (o : LLMOutcome) :
    (reformulate query o).keywords.length ≤ 6 ∧
    (2 ≤ (pySplit query).length → 2 ≤ (reformulate query o).keywords.length) := by
  have hfb : (((pySplit query).take 6).map Json.str).length ≤ 6 ∧
      (2 ≤ (pySplit query).length →
        2 ≤ (((pySplit query).take 6).map Json.str).length) := by
    constructor
    · simp [List.length_take]
    · intro h
      simp only [List.length_map, List.length_take]
      omega
  cases o with
  | failure e => simpa [reformulate] using hfb
  | success v =>
    cases v with
    | obj fields =>
      simp only [reformulate]
      cases hkw : (jGet fields "keywords").getD (Json.arr []) with
      | arr l =>
        simp only
        by_cases h6 : 6 < l.length
        · simp only [if_pos h6]
          constructor
          · simp [List.length_take]
          · intro hq
            simp only [List.length_take]
            omega
        · by_cases h2 : l.length < 2
          · simp only [if_neg h6, if_pos h2]
            exact hfb
          · simp only [if_neg h6, if_neg h2]
            exact ⟨by omega, fun hq => by omega⟩
      | null => simpa using hfb
      | bool b => simpa using hfb
      | num q => simpa using hfb
      | str s => simpa using hfb
      | obj o2 => simpa using hfb
    | null => simpa [reformulate] using hfb
    | bool b => simpa [reformulate] using hfb
    | num q => simpa [reformulate] using hfb
    | str s => simpa [reformulate] using hfb
    | arr l => simpa [reformulate] using hfb

/-- Witness for C2 amended at the two-token query `"a b"` and a failing
provider call. -/
theorem reformulate_keyword_count_amended_witness :
    (reformulate "a b" (LLMOutcome.failure "boom")).keywords.length ≤ 6 ∧
    2 ≤ (reformulate "a b" (LLMOutcome.failure "boom")).keywords.length :=
  ⟨(reformulate_keyword_count_amended "a b" (LLMOutcome.failure "boom")).1,
   (reformulate_keyword_count_amended "a b" (LLMOutcome.failure "boom")).2 (by decide)⟩

/-! ## C3 — checker failure default -/

/-- C3 counterexample: a provider response that parses to the JSON object
`{}` has no `"score"` field, yet `check_completion` returns the clamped
`.get` default `0.0`, not the claimed `0.5`. -/
theorem check_completion_default_counterexample :
    check_completion "q" [] (LLMOutcome.success (Json.obj [])) ≠ 1/2 := by
  simp only [check_completion, jGet, List.find?_nil, Option.map_none, Option.getD_none,
    pyFloat]
  norm_num

/-- C3 amended: a capability error or a JSON parse failure yields the neutral
`0.5`, but a successfully parsed object with no `"score"` field yields `0.0`
(the `.get` default `0.0`, clamped). -/
theorem check_completion_failure_amended :
    (∀ (q : String) (ctx : List SearchResult) (e : String),
        check_completion q ctx (LLMOutcome.failure e) = 1/2)
  ∧ (∀ (q : String) (ctx : List SearchResult) (fields : List (String × Json)),
        jGet fields "score" = none →
        check_completion q ctx (LLMOutcome.success (Json.obj fields)) = 0) := by
  constructor
  · intro q ctx e
    rfl
  · intro q ctx fields h
    simp [check_completion, h, pyFloat]

/-- Witness for C3 amended at a failing call and at the empty parsed
object. -/
theorem check_completion_failure_amended_witness :
    check_completion "q" [] (LLMOutcome.failure "boom") = 1/2
  ∧ check_completion "q" [] (LLMOutcome.success (Json.obj [])) = 0 :=
  ⟨check_completion_failure_amended.1 "q" [] "boom",
   check_completion_failure_amended.2 "q" [] [] rfl⟩

/-! ## C9 — checker range invariant -/

/-- C9: for every query, context and provider outcome — including responses
whose parsed score lies outside `[0,1]` — the value returned by
`check_completion` lies in `[0,1]`. -/
theorem check_completion_range (q : String) (ctx : List SearchResult)
    (o : LLMOutcome) :
    0 ≤ check_completion q ctx o ∧ check_completion q ctx o ≤ 1 := by
  have h12 : (0:ℚ) ≤ 1/2 ∧ (1:ℚ)/2 ≤ 1 := by norm_num
  cases o with
  | failure e => exact h12
  | success v =>
    cases v with
    | obj fields =>
      simp only [check_completion]
      cases hv : pyFloat ((jGet fields "score").getD (Json.num 0)) with
      | ok s =>
        constructor
        · exact le_max_left 0 (min 1 s)
        · exact max_le (by norm_num) (min_le_left 1 s)
      | error e => exact h12
    | null => exact h12
    | bool b => exact h12
    | num q2 => exact h12
    | str s => exact h12
    | arr l => exact h12

/-! ## C10 — memory cache TTL behaviour -/

/-- After replacing every entry keyed `ck`, the lookup for `ck` finds the new
entry, provided some entry was keyed `ck`. -/
theorem find?_after_update {α : Type} (l : List (String × α × ℚ)) (ck : String)
    (v : α) (t : ℚ) (h : l.any (fun e => e.1 == ck) = true) :
    (l.map (fun e => if e.1 == ck then (ck, v, t) else e)).find?
      (fun e => e.1 == ck) = some (ck, v, t) := by
  induction l with
  | nil => simp at h
  | cons a l ih =>
    simp only [List.map_cons]
    by_cases ha : a.1 == ck
    · rw [if_pos ha]
      apply List.find?_cons_of_pos
      simp
    · rw [if_neg ha]
      rw [List.find?_cons_of_neg _ (by simpa using ha)]
      apply ih
      simp only [List.any_cons, Bool.or_eq_true] at h
      rcases h with hh | hh
      · exact absurd hh ha
      · exact hh

/-- After appending a fresh entry keyed `ck` to a list with no entry keyed
`ck`, the lookup for `ck` finds it. -/
theorem find?_after_append {α : Type} (l : List (String × α × ℚ)) (ck : String)
    (v : α) (t : ℚ) (h : l.any (fun e => e.1 == ck) = false) :
    (l ++ [(ck, v, t)]).find? (fun e => e.1 == ck) = some (ck, v, t) := by
  have hnone : l.find? (fun e => e.1 == ck) = none := by
    rw [List.find?_eq_none]
    intro x hx
    have := List.any_eq_false.mp h x hx
    simpa using this
  simp [List.find?_append, hnone]

/-- C10: right after `set(key, value)` at time `t`, a `get(key)` at time `tq`
returns the stored value when `tq - t` is strictly below the ttl, and `None`
when `tq - t` reaches the ttl (the comparison in `get` is
`time.time() - timestamp < self.ttl`). -/
theorem memcache_get_after_set {α : Type} (c : MemoryCache α) (key : String)
    (value : α) (t tq : ℚ) :
    ((c.set key value t).get key tq).1 =
      if tq - t < c.ttl then some value else none := by
  simp only [MemoryCache.set]
  by_cases h : c.cache.any (fun e => e.1 == c.hashKey key)
  · simp only [if_pos h, MemoryCache.get]
    rw [find?_after_update c.cache (c.hashKey key) value t h]
    by_cases hf : tq - t < c.ttl
    · simp [if_pos hf]
    · simp [if_neg hf]
  · simp only [if_neg h, MemoryCache.get]
    rw [find?_after_append c.cache (c.hashKey key) value t (by rwa [Bool.not_eq_true] at h)]
    by_cases hf : tq - t < c.ttl
    · simp [if_pos hf]
    · simp [if_neg hf]

/-! ## C7 — generator failure response -/

/-- C7: `generate_answer` is a total function (it never raises), and whenever
the capability call raises or its content fails to parse as JSON, the result
is the fixed failure response: an answer string embedding the error text, no
citations, and confidence `0.0`. -/
theorem generate_answer_failure_policy :
    (∀ (q : String) (ctx : List SearchResult) (e : String)
        (parse : String → Except String Json),
        generate_answer q ctx (Except.error e) parse = errorResponse e)
  ∧ (∀ (q : String) (ctx : List SearchResult) (s : String)
        (parse : String → Except String Json) (e : String),
        parse s = Except.error e →
        generate_answer q ctx (Except.ok s) parse = errorResponse e)
  ∧ (∀ e : String,
        (errorResponse e).answer =
          Json.str ("Sorry, I encountered an error generating the answer: " ++ e)
        ∧ (errorResponse e).citations = []
        ∧ (errorResponse e).confidence_score = 0) := by
  refine ⟨fun q ctx e parse => rfl, fun q ctx s parse e h => ?_, fun e => ⟨rfl, rfl, rfl⟩⟩
  simp [generate_answer, Except.bind, h]

/-- Witness for C7 at a raising call and at an unparsable response. -/
theorem generate_answer_failure_policy_witness :
    generate_answer "q" [] (Except.error "boom")
        (fun _ => Except.ok Json.null) = errorResponse "boom"
  ∧ generate_answer "q" [] (Except.ok "not json")
        (fun _ => Except.error "Expecting value") = errorResponse "Expecting value" :=
  ⟨generate_answer_failure_policy.1 "q" [] "boom" (fun _ => Except.ok Json.null),
   generate_answer_failure_policy.2.1 "q" [] "not json"
     (fun _ => Except.error "Expecting value") "Expecting value" rfl⟩

/-! ## C8 — citation metadata matching -/

/-- Every citation produced by the citation loop comes from `buildCitation`
on some element of the input list. -/
theorem buildCitations_mem (context : List SearchResult) :
    ∀ (cs : List Json) (cites : List Citation),
      buildCitations context cs = Except.ok cites →
      ∀ c ∈ cites, ∃ j ∈ cs, buildCitation context j = Except.ok c := by
  intro cs
  induction cs with
  | nil =>
    intro cites h c hc
    simp only [buildCitations] at h
    cases h
    simp at hc
  | cons j rest ih =>
    intro cites h c hc
    simp only [buildCitations] at h
    cases hj : buildCitation context j with
    | error e => rw [hj] at h; exact absurd h (by simp [Except.bind])
    | ok cite =>
      rw [hj] at h
      cases hr : buildCitations context rest with
      | error e => rw [hr] at h; exact absurd h (by simp [Except.bind])
      | ok cites' =>
        rw [hr] at h
        simp only [Except.bind] at h
        cases h
        rcases List.mem_cons.mp hc with hceq | hcmem
        · exact ⟨j, List.mem_cons_self j rest, hceq ▸ hj⟩
        · rcases ih cites' hr c hcmem with ⟨j2, hj2, hok2⟩
          exact ⟨j2, List.mem_cons_of_mem j hj2, hok2⟩

/-- A citation built successfully from a JSON object whose quote is the
string `t` carries the metadata of the first context entry containing `t`,
or empty metadata if none does. -/
theorem buildCitation_ok_meta (context : List SearchResult) (j : Json)
    (c : Citation) (h : buildCitation context j = Except.ok c) (t : String)
    (ht : c.text = Json.str t) :
    c.metadata =
      ((context.find? (fun r => strIn t r.text)).map
        (fun r => r.metadata)).getD [] := by
  cases j with
  | obj cf =>
    simp only [buildCitation] at h
    cases hg : jGet cf "text" with
    | none => rw [hg] at h; cases h
    | some tv =>
      rw [hg] at h
      cases tv with
      | str t2 =>
        simp only at h
        cases h
        cases ht
        rfl
      | null =>
        cases context with
        | nil => simp only at h; cases h; cases ht
        | cons a l => simp only at h; cases h
      | bool b =>
        cases context with
        | nil => simp only at h; cases h; cases ht
        | cons a l => simp only at h; cases h
      | num q =>
        cases context with
        | nil => simp only at h; cases h; cases ht
        | cons a l => simp only at h; cases h
      | arr el =>
        cases context with
        | nil => simp only at h; cases h; cases ht
        | cons a l => simp only at h; cases h
      | obj o2 =>
        cases context with
        | nil => simp only at h; cases h; cases ht
        | cons a l => simp only at h; cases h
  | null => cases h
  | bool b => cases h
  | num q => cases h
  | str s => cases h
  | arr el => cases h

/-- C8: in a successful generation — the call returned `content`, it parsed
to a JSON object, its `citations` value is a list, every citation built, and
the confidence converted — the response's citation list is exactly the built
list, and every citation whose quote is the string `t` carries the metadata
of the first context entry (in input order) whose text contains `t` as a
substring, or empty metadata when no entry contains it. -/
theorem generate_answer_citation_metadata
    (q content : String) (ctx : List SearchResult)
    (parse : String → Except String Json)
    (fields : List (String × Json)) (cs : List Json) (cites : List Citation)
    (conf : ℚ)
    (hp : parse content = Except.ok (Json.obj fields))
    (hc : jGet fields "citations" = some (Json.arr cs))
    (hm : buildCitations ctx cs = Except.ok cites)
    (hf : pyFloat ((jGet fields "confidence_score").getD (Json.num (1/2))) =
      Except.ok conf) :
    (generate_answer q ctx (Except.ok content) parse).citations = cites
  ∧ ∀ c ∈ cites, ∀ t : String, c.text = Json.str t →
      c.metadata =
        ((ctx.find? (fun r => strIn t r.text)).map
          (fun r => r.metadata)).getD [] := by
  constructor
  · simp only [generate_answer, Except.bind, hp, generateFromParsed, hc, hm, hf]
  · intro c hcmem t ht
    rcases buildCitations_mem ctx cs cites hm c hcmem with ⟨j, _, hok⟩
    exact buildCitation_ok_meta ctx j c hok t ht

/-- Witness for C8: the quote `"capital"` is contained in both context texts;
the produced citation inherits the metadata of the first one. -/
theorem generate_answer_citation_metadata_witness :
    (generate_answer "q" exContext (Except.ok "resp")
        (fun _ => Except.ok
          (Json.obj [("citations",
            Json.arr [Json.obj [("text", Json.str "capital")]])]))).citations =
      [{ text := Json.str "capital", metadata := [("source", "wiki")],
         relevance_score := Json.num (1/2) }]
  ∧ ({ text := Json.str "capital", metadata := [("source", "wiki")],
       relevance_score := Json.num (1/2) } : Citation).metadata =
      ((exContext.find? (fun r => strIn "capital" r.text)).map
        (fun r => r.metadata)).getD [] := by
  have h := generate_answer_citation_metadata "q" "resp" exContext
    (fun _ => Except.ok
      (Json.obj [("citations", Json.arr [Json.obj [("text", Json.str "capital")]])]))
    [("citations", Json.arr [Json.obj [("text", Json.str "capital")]])]
    [Json.obj [("text", Json.str "capital")]]
    [{ text := Json.str "capital", metadata := [("source", "wiki")],
       relevance_score := Json.num (1/2) }]
    (1/2) rfl rfl rfl rfl
  exact ⟨h.1, h.2 _ (List.mem_singleton.mpr rfl) "capital" rfl⟩

/-! ## C5 — early-exit gating -/

/-- If the first `k` attempts of a stage raise and attempt `k` (with
`k < n` attempts available from index `i`) succeeds, the retry loop returns
the success. -/
theorem retryFrom_ok {α : Type} (attempts : Nat → Except String α) (v : α) :
    ∀ (k i n : Nat), k < n →
      (∀ j, j < k → ∃ e, attempts (i + j) = Except.error e) →
      attempts (i + k) = Except.ok v →
      retryFrom attempts i n = Except.ok v := by
  intro k
  induction k with
  | zero =>
    intro i n hn hfail hok
    cases n with
    | zero => omega
    | succ m =>
      rw [Nat.add_zero] at hok
      rw [retryFrom, hok]
  | succ k ih =>
    intro i n hn hfail hok
    cases n with
    | zero => omega
    | succ m =>
      obtain ⟨e, he⟩ := hfail 0 (Nat.succ_pos k)
      rw [Nat.add_zero] at he
      cases m with
      | zero => omega
      | succ m2 =>
        rw [retryFrom, he]
        apply ih (i + 1) (m2 + 1) (by omega)
        · intro j hj
          obtain ⟨e2, he2⟩ := hfail (j + 1) (by omega)
          refine ⟨e2, ?_⟩
          rw [show i + 1 + j = i + (j + 1) by omega]
          exact he2
        · rw [show i + 1 + k = i + (k + 1) by omega]
          exact hok

/-- C5: (1) when routing yields an intent other than `ANSWER`, the workflow
returns no response and a trail of exactly the one route `StepLog`; the
equality's right-hand side does not depend on the reformulator, retriever,
checker or generator, so no later stage is invoked.  (2) When routing yields
`ANSWER`, the next three stages succeed and the completion score falls below
the threshold, the workflow returns no response and a trail of exactly the
four `StepLog`s of route, reformulate, retrieve and check; the right-hand
side does not depend on the generator, so it is never invoked. -/
theorem rag_execute_early_exits :
    ∀ (query : String)
      (router : String → Nat → Except String (QueryIntent × StepLog))
      (reformulator : String → Nat → Except String (ReformulatedQuery × StepLog))
      (retriever : Json → List Json → Nat →
        Except String (List SearchResult × StepLog))
      (checker : String → List SearchResult → Nat → Except String (ℚ × StepLog))
      (generator : String → List SearchResult → Nat →
        Except String (RAGResponse × StepLog))
      (threshold : ℚ) (retries : Nat),
    (∀ (intent : QueryIntent) (lg : StepLog),
        execute_with_retry (router query) retries = Except.ok (intent, lg) →
        intent ≠ QueryIntent.ANSWER →
        rag_execute query router reformulator retriever checker generator
            threshold retries =
          { sink := [lg], result := Except.ok (none, [lg]) })
  ∧ (∀ (lg₁ : StepLog) (rf : ReformulatedQuery) (lg₂ : StepLog)
        (ctx : List SearchResult) (lg₃ : StepLog) (score : ℚ) (lg₄ : StepLog),
        execute_with_retry (router query) retries =
          Except.ok (QueryIntent.ANSWER, lg₁) →
        execute_with_retry (reformulator query) retries = Except.ok (rf, lg₂) →
        execute_with_retry (retriever rf.refined_text rf.keywords) retries =
          Except.ok (ctx, lg₃) →
        execute_with_retry (checker query ctx) retries =
          Except.ok (score, lg₄) →
        score < threshold →
        rag_execute query router reformulator retriever checker generator
            threshold retries =
          { sink := [lg₁, lg₂, lg₃, lg₄],
            result := Except.ok (none, [lg₁, lg₂, lg₃, lg₄]) }) := by
  intro query router reformulator retriever checker generator threshold retries
  constructor
  · intro intent lg h1 hne
    simp only [rag_execute]
    rw [h1]
    simp only []
    rw [if_pos hne]
  · intro lg₁ rf lg₂ ctx lg₃ score lg₄ h1 h2 h3 h4 hlt
    have hansw : ¬ (QueryIntent.ANSWER ≠ QueryIntent.ANSWER) := fun h => h rfl
    simp only [rag_execute]
    rw [h1]
    simp only []
    rw [if_neg hansw, h2]
    simp only []
    rw [h3]
    simp only []
    rw [h4]
    simp only []
    rw [if_pos hlt]

/-- Witness for C5 at a rejecting router and at a low-scoring checker. -/
theorem rag_execute_early_exits_witness :
    rag_execute "q" rejectRouter stubReformulator stubRetriever lowChecker
        stubGenerator (7/10) 3 =
      { sink := [exLog "route_query"],
        result := Except.ok (none, [exLog "route_query"]) }
  ∧ rag_execute "q" answerRouter stubReformulator stubRetriever lowChecker
        stubGenerator (7/10) 3 =
      { sink := [exLog "route_query", exLog "reformulate", exLog "retrieve",
                 exLog "check_completion"],
        result := Except.ok (none,
          [exLog "route_query", exLog "reformulate", exLog "retrieve",
           exLog "check_completion"]) } :=
  ⟨(rag_execute_early_exits "q" rejectRouter stubReformulator stubRetriever
      lowChecker stubGenerator (7/10) 3).1 QueryIntent.REJECT
      (exLog "route_query") rfl (by decide),
   (rag_execute_early_exits "q" answerRouter stubReformulator stubRetriever
      lowChecker stubGenerator (7/10) 3).2 (exLog "route_query")
      { refined_text := Json.str "q", keywords := [Json.str "k1", Json.str "k2"] }
      (exLog "reformulate")
      [{ text := "Paris is the capital of France", metadata := [("source", "wiki")],
         score := 9/10 }]
      (exLog "retrieve") (2/5) (exLog "check_completion")
      rfl rfl rfl rfl (by norm_num)⟩

/-! ## C6 — one StepLog per attempt -/

/-- C6 counterexample: with a router whose first attempt raises and whose
second attempt succeeds with `CLARIFY`, the run's trail contains a single
`StepLog` — the claim's `k+1 = 2` logs for a stage with one failed and one
successful attempt do not appear, because failed attempts are retried (or
re-raised) without producing any log. -/
theorem steplog_per_attempt_counterexample :
    (rag_execute "q" flakyRouter stubReformulator stubRetriever lowChecker
        stubGenerator (7/10) 3).result =
      Except.ok (none, [exLog "route_query"])
  ∧ (rag_execute "q" flakyRouter stubReformulator stubRetriever lowChecker
        stubGenerator (7/10) 3).sink.length ≠ 2 := by
  constructor
  · rfl
  · decide

/-- C6 amended: only successful stage calls produce a `StepLog` — a stage
that raises on its first `k` attempts and succeeds on attempt `k` contributes
exactly one log (shown here at the route stage, for any early-exit intent),
not `k+1`; and every log appended to the returned trail was forwarded to the
log sink, in order (`sink = trail` whenever the run returns). -/
theorem steplog_per_attempt_amended :
    (∀ (query : String)
        (router : String → Nat → Except String (QueryIntent × StepLog))
        (reformulator : String → Nat → Except String (ReformulatedQuery × StepLog))
        (retriever : Json → List Json → Nat →
          Except String (List SearchResult × StepLog))
        (checker : String → List SearchResult → Nat → Except String (ℚ × StepLog))
        (generator : String → List SearchResult → Nat →
          Except String (RAGResponse × StepLog))
        (threshold : ℚ) (retries k : Nat) (intent : QueryIntent) (lg : StepLog),
        k < retries →
        (∀ j, j < k → ∃ e, router query j = Except.error e) →
        router query k = Except.ok (intent, lg) →
        intent ≠ QueryIntent.ANSWER →
        rag_execute query router reformulator retriever checker generator
            threshold retries =
          { sink := [lg], result := Except.ok (none, [lg]) })
  ∧ (∀ (query : String)
        (router : String → Nat → Except String (QueryIntent × StepLog))
        (reformulator : String → Nat → Except String (ReformulatedQuery × StepLog))
        (retriever : Json → List Json → Nat →
          Except String (List SearchResult × StepLog))
        (checker : String → List SearchResult → Nat → Except String (ℚ × StepLog))
        (generator : String → List SearchResult → Nat →
          Except String (RAGResponse × StepLog))
        (threshold : ℚ) (retries : Nat) (resp : Option RAGResponse)
        (trail : List StepLog),
        (rag_execute query router reformulator retriever checker generator
            threshold retries).result = Except.ok (resp, trail) →
        (rag_execute query router reformulator retriever checker generator
            threshold retries).sink = trail) := by
  constructor
  · intro query router reformulator retriever checker generator threshold
      retries k intent lg hk hfail hok hne
    have hretry : execute_with_retry (router query) retries =
        Except.ok (intent, lg) := by
      apply retryFrom_ok (router query) (intent, lg) k 0 retries hk
      · intro j hj
        simpa using hfail j hj
      · simpa using hok
    exact (rag_execute_early_exits query router reformulator retriever checker
      generator threshold retries).1 intent lg hretry hne
  · intro query router reformulator retriever checker generator threshold
      retries resp trail h
    simp only [rag_execute] at h ⊢
    cases h1 : execute_with_retry (router query) retries with
    | error e => rw [h1] at h; simp at h
    | ok p1 =>
      obtain ⟨intent, route_log⟩ := p1
      rw [h1] at h
      simp only [] at h ⊢
      by_cases hi : intent ≠ QueryIntent.ANSWER
      · rw [if_pos hi] at h ⊢
        simp only [Except.ok.injEq, Prod.mk.injEq] at h
        exact h.2
      · rw [if_neg hi] at h ⊢
        cases h2 : execute_with_retry (reformulator query) retries with
        | error e => rw [h2] at h; simp at h
        | ok p2 =>
          obtain ⟨rf, reform_log⟩ := p2
          rw [h2] at h
          simp only [] at h ⊢
          cases h3 : execute_with_retry
              (retriever rf.refined_text rf.keywords) retries with
          | error e => rw [h3] at h; simp at h
          | ok p3 =>
            obtain ⟨ctx, retrieve_log⟩ := p3
            rw [h3] at h
            simp only [] at h ⊢
            cases h4 : execute_with_retry (checker query ctx) retries with
            | error e => rw [h4] at h; simp at h
            | ok p4 =>
              obtain ⟨score, check_log⟩ := p4
              rw [h4] at h
              simp only [] at h ⊢
              by_cases h5 : score < threshold
              · rw [if_pos h5] at h ⊢
                simp only [Except.ok.injEq, Prod.mk.injEq] at h
                exact h.2
              · rw [if_neg h5] at h ⊢
                cases h6 : execute_with_retry (generator query ctx) retries with
                | error e => rw [h6] at h; simp at h
                | ok p6 =>
                  obtain ⟨response, generate_log⟩ := p6
                  rw [h6] at h
                  simp only [] at h ⊢
                  simp only [Except.ok.injEq, Prod.mk.injEq] at h
                  exact h.2

/-- Witness for C6 amended: the flaky router fails once, succeeds on its
second attempt with `CLARIFY`, and the run's trail and sink both hold exactly
the single log of the successful attempt. -/
theorem steplog_per_attempt_amended_witness :
    rag_execute "q" flakyRouter stubReformulator stubRetriever lowChecker
        stubGenerator (7/10) 3 =
      { sink := [exLog "route_query"],
        result := Except.ok (none, [exLog "route_query"]) }
  ∧ (rag_execute "q" flakyRouter stubReformulator stubRetriever lowChecker
        stubGenerator (7/10) 3).sink = [exLog "route_query"] :=
  ⟨steplog_per_attempt_amended.1 "q" flakyRouter stubReformulator stubRetriever
      lowChecker stubGenerator (7/10) 3 1 QueryIntent.CLARIFY
      (exLog "route_query") (by omega)
      (fun j hj => ⟨"boom", by
        have hj0 : j = 0 := by omega
        subst hj0
        rfl⟩)
      rfl (by decide),
   steplog_per_attempt_amended.2 "q" flakyRouter stubReformulator stubRetriever
      lowChecker stubGenerator (7/10) 3 none [exLog "route_query"] rfl⟩

/-! ## C1 — weighted-score fusion -/

theorem semProj_text (r : SearchResult) : (semProj r).text = r.text := rfl

theorem kwProj_text (r : SearchResult) : (kwProj r).text = r.text := rfl

theorem bumpBy_nil (e : SearchResult) : bumpBy [] e = e := rfl

theorem bumpBy_text (K : List SearchResult) (e : SearchResult) :
    (bumpBy K e).text = e.text := by
  unfold bumpBy
  cases K.find? (fun k => k.text == e.text) <;> rfl

theorem bumpBy_cons_of_ne (a : SearchResult) (K : List SearchResult)
    (e : SearchResult) (h : (a.text == e.text) = false) :
    bumpBy (a :: K) e = bumpBy K e := by
  unfold bumpBy
  rw [List.find?_cons]
  simp [h]

theorem bumpBy_cons_of_eq (a : SearchResult) (K : List SearchResult)
    (e : SearchResult) (h : (a.text == e.text) = true) :
    bumpBy (a :: K) e = { e with score := e.score + a.score * (3/10) } := by
  unfold bumpBy
  rw [List.find?_cons]
  simp [h]

theorem bumpBy_of_not_mem (K : List SearchResult) (e : SearchResult)
    (h : e.text ∉ K.map (fun r => r.text)) : bumpBy K e = e := by
  have hfind : K.find? (fun k => k.text == e.text) = none := by
    rw [List.find?_eq_none]
    intro k hk
    simp only [beq_iff_eq]
    intro ht
    exact h (ht ▸ List.mem_map_of_mem (fun r => r.text) hk)
  unfold bumpBy
  rw [hfind]

/-- Seeding an insertion-ordered dict with entries whose keys are pairwise
distinct and absent from the accumulator just appends their projections. -/
theorem foldl_dictSet_fresh :
    ∀ (S m : List SearchResult),
      (∀ r ∈ S, ∀ e ∈ m, ¬ e.text = r.text) →
      (S.map (fun r => r.text)).Nodup →
      S.foldl (fun m r => dictSet m (semProj r)) m = m ++ S.map semProj := by
  intro S
  induction S with
  | nil => intro m _ _; simp
  | cons a S ih =>
    intro m hdisj hnd
    have ha : a.text ∉ S.map (fun r => r.text) := (List.nodup_cons.mp hnd).1
    have hS : (S.map (fun r => r.text)).Nodup := (List.nodup_cons.mp hnd).2
    simp only [List.foldl_cons]
    have hany : textMem m (semProj a).text = false := by
      apply List.any_eq_false.mpr
      intro e he
      simp only [semProj_text, beq_iff_eq]
      exact hdisj a (List.mem_cons_self a S) e he
    rw [show dictSet m (semProj a) = m ++ [semProj a] by
      simp [dictSet, hany]]
    rw [ih (m ++ [semProj a]) ?_ hS]
    · simp
    · intro r hr e he
      rcases List.mem_append.mp he with hm | hsing
      · exact hdisj r (List.mem_cons_of_mem a hr) e hm
      · rw [List.mem_singleton.mp hsing, semProj_text]
        intro hat
        exact ha (hat ▸ List.mem_map_of_mem (fun r => r.text) hr)

/-- A text-preserving rewrite of the entries does not change key
membership. -/
theorem textMem_map_preserve (m : List SearchResult)
    (f : SearchResult → SearchResult) (hf : ∀ e, (f e).text = e.text)
    (t : String) : textMem (m.map f) t = textMem m t := by
  unfold textMem
  induction m with
  | nil => rfl
  | cons b m ih => simp [List.any_cons, hf, ih]

/-- Folding the keyword loop over a dict `m` bumps each stored entry by its
(unique) matching keyword contribution and appends the projections of the
keyword results whose text is not yet a key. -/
theorem foldl_kwStep :
    ∀ (K m : List SearchResult),
      (K.map (fun r => r.text)).Nodup →
      K.foldl kwStep m =
        m.map (bumpBy K) ++
          (K.filter (fun k => ! textMem m k.text)).map kwProj := by
  intro K
  induction K with
  | nil =>
    intro m _
    simp only [List.foldl_nil, List.filter_nil, List.map_nil, List.append_nil]
    rw [List.map_congr_left (fun e _ => bumpBy_nil e)]
    exact (List.map_id m).symm
  | cons a K ih =>
    intro m hnd
    have ha : a.text ∉ K.map (fun r => r.text) := (List.nodup_cons.mp hnd).1
    have hK : (K.map (fun r => r.text)).Nodup := (List.nodup_cons.mp hnd).2
    simp only [List.foldl_cons]
    by_cases hmem : textMem m a.text
    · -- a's text is already a key: in-place score bump, no new entry
      rw [show kwStep m a =
          m.map (fun e =>
            if e.text == a.text then { e with score := e.score + a.score * (3/10) }
            else e) by simp [kwStep, hmem]]
      rw [ih _ hK]
      have hpart1 :
          (m.map (fun e =>
            if e.text == a.text then { e with score := e.score + a.score * (3/10) }
            else e)).map (bumpBy K) = m.map (bumpBy (a :: K)) := by
        rw [List.map_map]
        apply List.map_congr_left
        intro e _
        simp only [Function.comp]
        by_cases hea : e.text == a.text
        · have heq : e.text = a.text := by simpa using hea
          rw [if_pos hea]
          rw [bumpBy_of_not_mem K { e with score := e.score + a.score * (3/10) }
            (by rw [show ({ e with score := e.score + a.score * (3/10) }
                  : SearchResult).text = a.text from heq]
                exact ha)]
          rw [bumpBy_cons_of_eq a K e (by simp [heq])]
        · rw [if_neg hea]
          rw [bumpBy_cons_of_ne a K e
            (by simp only [beq_eq_false_iff_ne, ne_eq]
                simp only [beq_iff_eq] at hea
                exact fun h => hea h.symm)]
      have hpart2 :
          (K.filter (fun k => ! textMem
            (m.map (fun e =>
              if e.text == a.text then { e with score := e.score + a.score * (3/10) }
              else e)) k.text)) =
          K.filter (fun k => ! textMem m k.text) := by
        apply List.filter_congr
        intro k _
        have hf : ∀ e : SearchResult,
            ((fun e => if e.text == a.text
                then { e with score := e.score + a.score * (3/10) }
                else e) e).text = e.text := by
          intro e
          by_cases hc : e.text == a.text <;> simp [hc]
        rw [textMem_map_preserve _ _ hf]
      rw [hpart1, hpart2]
      have hfilt : (a :: K).filter (fun k => ! textMem m k.text) =
          K.filter (fun k => ! textMem m k.text) := by
        rw [List.filter_cons]
        simp [hmem]
      rw [hfilt]
    · -- a's text is new: append its projection
      rw [show kwStep m a = m ++ [kwProj a] by simp [kwStep, hmem]]
      rw [ih _ hK]
      have hbump_new : bumpBy K (kwProj a) = kwProj a :=
        bumpBy_of_not_mem K (kwProj a) (by simpa [kwProj_text] using ha)
      have hpart1 : (m ++ [kwProj a]).map (bumpBy K) =
          m.map (bumpBy (a :: K)) ++ [kwProj a] := by
        rw [List.map_append]
        congr 1
        · apply List.map_congr_left
          intro e he
          have hne : (a.text == e.text) = false := by
            rw [beq_eq_false_iff_ne]
            intro h
            apply hmem
            exact List.any_eq_true.mpr ⟨e, he, by simp [h.symm]⟩
          exact (bumpBy_cons_of_ne a K e hne).symm
        · simp [hbump_new]
      have hpart2 :
          K.filter (fun k => ! textMem (m ++ [kwProj a]) k.text) =
          K.filter (fun k => ! textMem m k.text) := by
        apply List.filter_congr
        intro k hk
        simp only [textMem, List.any_append]
        have hak : ((kwProj a).text == k.text) = false := by
          simp only [kwProj_text, beq_eq_false_iff_ne, ne_eq]
          intro h
          exact ha (h ▸ List.mem_map_of_mem (fun r => r.text) hk)
        simp [hak]
      have hfilt : (a :: K).filter (fun k => ! textMem m k.text) =
          a :: K.filter (fun k => ! textMem m k.text) := by
        rw [List.filter_cons]
        simp [hmem]
      rw [hpart1, hpart2, hfilt]
      simp

/-- With pairwise-distinct texts, the linear scan for a member's text finds
exactly that member. -/
theorem find?_text_of_nodup :
    ∀ (K : List SearchResult), (K.map (fun r => r.text)).Nodup →
      ∀ k ∈ K, K.find? (fun x => x.text == k.text) = some k := by
  intro K
  induction K with
  | nil => intro _ k hk; simp at hk
  | cons a K ih =>
    intro hnd k hk
    have ha : a.text ∉ K.map (fun r => r.text) := (List.nodup_cons.mp hnd).1
    have hK : (K.map (fun r => r.text)).Nodup := (List.nodup_cons.mp hnd).2
    rcases List.mem_cons.mp hk with rfl | hkK
    · rw [List.find?_cons_of_pos _ (by simp)]
    · have hak : (a.text == k.text) = false := by
        rw [beq_eq_false_iff_ne]
        intro h
        exact ha (h ▸ List.mem_map_of_mem (fun r => r.text) hkK)
      rw [List.find?_cons]
      simp only [hak]
      exact ih hK k hkK

/-- C1: for semantic and keyword results with pairwise-distinct texts within
each list, `rerank` emits no duplicate text, is sorted by fused score
descending, emits only texts drawn from the two input lists, and contains —
hence, with the no-duplicates part, contains exactly once — an entry scored
`0.7 * s` for a semantic-only text with semantic score `s`, `0.3 * k` for a
keyword-only text with keyword score `k`, and `0.7 * s + 0.3 * k` for a text
present in both. -/
theorem rerank_correct (S K : List SearchResult)
    (hS : (S.map (fun r => r.text)).Nodup)
    (hK : (K.map (fun r => r.text)).Nodup) :
    ((rerank S K).map (fun r => r.text)).Nodup
  ∧ (rerank S K).Pairwise (fun a b => b.score ≤ a.score)
  ∧ (∀ e ∈ rerank S K,
        e.text ∈ S.map (fun r => r.text) ∨ e.text ∈ K.map (fun r => r.text))
  ∧ (∀ r ∈ S, r.text ∉ K.map (fun x => x.text) →
        ({ text := r.text, metadata := r.metadata, score := r.score * (7/10) }
          : SearchResult) ∈ rerank S K)
  ∧ (∀ k ∈ K, k.text ∉ S.map (fun x => x.text) →
        ({ text := k.text, metadata := k.metadata, score := k.score * (3/10) }
          : SearchResult) ∈ rerank S K)
  ∧ (∀ r ∈ S, ∀ k ∈ K, r.text = k.text →
        ({ text := r.text, metadata := r.metadata,
           score := r.score * (7/10) + k.score * (3/10) } : SearchResult)
          ∈ rerank S K) := by
  obtain ⟨M, hMdef, hrk⟩ :
      ∃ M, M = (S.map semProj).map (bumpBy K) ++
          (K.filter (fun k => ! textMem (S.map semProj) k.text)).map kwProj
        ∧ rerank S K = M.mergeSort (fun a b => decide (b.score ≤ a.score)) := by
    refine ⟨_, rfl, ?_⟩
    have hm1 : semPhase S = S.map semProj := by
      have h := foldl_dictSet_fresh S [] (by intro r _ e he; simp at he) hS
      simpa [semPhase] using h
    show (K.foldl kwStep (semPhase S)).mergeSort _ = _
    rw [hm1, foldl_kwStep K (S.map semProj) hK]
  have hmemM : ∀ e, e ∈ rerank S K ↔ e ∈ M := by
    intro e
    rw [hrk, List.mem_mergeSort]
  -- the texts of the fused dict, in order
  have htextsM : M.map (fun r => r.text) =
      S.map (fun r => r.text) ++
        (K.filter (fun k => ! textMem (S.map semProj) k.text)).map
          (fun r => r.text) := by
    rw [hMdef, List.map_append]
    congr 1
    · rw [List.map_map, List.map_map]
      apply List.map_congr_left
      intro r _
      simp [Function.comp, bumpBy_text, semProj_text]
    · rw [List.map_map]
      apply List.map_congr_left
      intro k _
      simp [Function.comp, kwProj_text]
  -- no duplicate text in the fused dict
  have hnodupM : (M.map (fun r => r.text)).Nodup := by
    rw [htextsM, List.nodup_append]
    refine ⟨hS, ?_, ?_⟩
    · exact List.Nodup.sublist
        (List.Sublist.map (fun r => r.text) (List.filter_sublist K)) hK
    · intro t htS htF
      rcases List.mem_map.mp htF with ⟨k, hkf, hkt⟩
      rcases List.mem_filter.mp hkf with ⟨hkK, hcond⟩
      have hfalse : textMem (S.map semProj) k.text = false := by
        revert hcond
        cases textMem (S.map semProj) k.text <;> simp
      rcases List.mem_map.mp htS with ⟨s, hsS, hst⟩
      have := List.any_eq_false.mp hfalse (semProj s)
        (List.mem_map_of_mem semProj hsS)
      apply this
      simp [semProj_text, hst, hkt]
  constructor
  · -- output texts have no duplicates
    rw [hrk]
    have hperm := (List.mergeSort_perm M
      (fun a b => decide (b.score ≤ a.score))).map (fun r => r.text)
    exact hperm.nodup_iff.mpr hnodupM
  constructor
  · -- output is sorted by fused score descending
    rw [hrk]
    have h := List.sorted_mergeSort
      (fun (a b c : SearchResult)
          (hab : (decide (b.score ≤ a.score)) = true)
          (hbc : (decide (c.score ≤ b.score)) = true) => by
        simp only [decide_eq_true_eq] at *
        exact le_trans hbc hab)
      (fun (a b : SearchResult) => by
        simp only [Bool.or_eq_true, decide_eq_true_eq]
        exact le_total b.score a.score) M
    exact h.imp (fun hab => by simpa using hab)
  constructor
  · -- every output text comes from one of the two inputs
    intro e he
    rw [hmemM] at he
    rw [hMdef] at he
    rcases List.mem_append.mp he with h1 | h2
    · rcases List.mem_map.mp h1 with ⟨x, hx, rfl⟩
      rcases List.mem_map.mp hx with ⟨s, hsS, rfl⟩
      left
      rw [bumpBy_text, semProj_text]
      exact List.mem_map_of_mem (fun r => r.text) hsS
    · rcases List.mem_map.mp h2 with ⟨k, hkf, rfl⟩
      right
      rw [kwProj_text]
      exact List.mem_map_of_mem (fun r => r.text) (List.mem_filter.mp hkf).1
  constructor
  · -- semantic-only entries keep 0.7 * semantic score
    intro r hr hrK
    rw [hmemM, hMdef]
    apply List.mem_append_left
    apply List.mem_map.mpr
    refine ⟨semProj r, List.mem_map_of_mem semProj hr, ?_⟩
    exact bumpBy_of_not_mem K (semProj r) (by rw [semProj_text]; exact hrK)
  constructor
  · -- keyword-only entries get 0.3 * keyword score
    intro k hk hkS
    rw [hmemM, hMdef]
    apply List.mem_append_right
    apply List.mem_map_of_mem kwProj
    apply List.mem_filter.mpr
    refine ⟨hk, ?_⟩
    have hfalse : textMem (S.map semProj) k.text = false := by
      apply List.any_eq_false.mpr
      intro e he
      rcases List.mem_map.mp he with ⟨s, hsS, rfl⟩
      simp only [semProj_text, beq_iff_eq]
      intro hst
      exact hkS (hst ▸ List.mem_map_of_mem (fun x => x.text) hsS)
    rw [hfalse]
    rfl
  · -- overlapping texts get the weighted sum
    intro r hr k hk heq
    rw [hmemM, hMdef]
    apply List.mem_append_left
    apply List.mem_map.mpr
    refine ⟨semProj r, List.mem_map_of_mem semProj hr, ?_⟩
    unfold bumpBy
    rw [show (fun x : SearchResult => x.text == (semProj r).text) =
        (fun x : SearchResult => x.text == k.text) by
      funext x
      rw [semProj_text, heq]]
    rw [find?_text_of_nodup K hK k hk]
    rfl

/-- Witness for C1 on two overlapping two-element lists: no duplicate texts
in the output, the semantic-only text `"A"` scores `0.9 * 0.7`, the
keyword-only text `"C"` scores `1 * 0.3`, and the shared text `"B"` scores
`0.5 * 0.7 + 1 * 0.3` with the semantic entry's metadata. -/
theorem rerank_correct_witness :
    ((rerank semResults kwResults).map (fun r => r.text)).Nodup
  ∧ ({ text := "A", metadata := [], score := (9/10 : ℚ) * (7/10) }
      : SearchResult) ∈ rerank semResults kwResults
  ∧ ({ text := "C", metadata := [], score := (1 : ℚ) * (3/10) }
      : SearchResult) ∈ rerank semResults kwResults
  ∧ ({ text := "B", metadata := [], score := (1/2 : ℚ) * (7/10) + 1 * (3/10) }
      : SearchResult) ∈ rerank semResults kwResults := by
  have h := rerank_correct semResults kwResults (by decide) (by decide)
  refine ⟨h.1, ?_, ?_, ?_⟩
  · exact h.2.2.2.1 _ (List.mem_cons_self _ _) (by decide)
  · exact h.2.2.2.2.1 _ (List.mem_cons_of_mem _ (List.mem_cons_self _ _))
      (by decide)
  · exact h.2.2.2.2.2 _ (List.mem_cons_of_mem _ (List.mem_cons_self _ _)) _
      (List.mem_cons_self _ _) rfl

end RAG
